import Mathlib

/-!
Shallow embedding of the target-operation orchestration and pull-dispatch
engine of vscode-deploy-reloaded (files `src/targets.ts` and `src/pull.ts`),
together with proofs settling the frozen claims about it.

External collaborators (string helpers, the translator, the built-in open
executor, plugins, the filesystem and the UI) are modelled as explicit
parameters or as small functions documented as modelled from the spec.
JavaScript `undefined`/`null` is modelled with `Option`; mutable external
state polled sequentially (the workspace finalize flag, plugin outcomes,
persistence outcomes) is modelled with oracles indexed by the poll/call
position, which is faithful for strictly sequential code.
-/

/-- Modelled from the spec: `deploy_helpers.toStringSafe` (helpers are not
under `src/`): a missing/undefined string value becomes the empty string,
a present string stays itself. -/
def toStringSafe (s : Option String) : String :=
  s.getD ""

/-- Trim of a character list: drop leading and trailing whitespace. -/
def trimChars (l : List Char) : List Char :=
  ((l.dropWhile Char.isWhitespace).reverse.dropWhile Char.isWhitespace).reverse

/-- Modelled from the spec: normalization of a plain string — "Normalized
type: lower-cased, trimmed type tag" (`deploy_helpers.normalizeString` on a
string argument, helpers are not under `src/`). -/
def normalizeStr (s : String) : String :=
  String.mk (trimChars (s.data.map Char.toLower))

/-- Modelled from the spec: `deploy_helpers.normalizeString` on a possibly
missing value: `toStringSafe` then lower-case and trim. -/
def normalizeString (s : Option String) : String :=
  normalizeStr (toStringSafe s)

/-- Modelled from the spec: `deploy_helpers.isEmptyString` (helpers are not
under `src/`): a string is "empty" when its normalization is the empty
string. -/
def isEmptyString (s : String) : Bool :=
  normalizeStr s = ""

/-- Modelled from the spec: `deploy_helpers.toBooleanSafe` over the
tri-state executor result — "`void`/`null` mean continue, no opinion;
`true` means continue; `false` means abort", with the given default used
for the `void`/`null` case. -/
def toBooleanSafe (v : Option Bool) (dflt : Bool) : Bool :=
  v.getD dflt

/-- Target operation record (`TargetOperation` in `src/targets.ts`,
extended with the `target` payload field of the open operation and with
the evaluated result of the optional inclusion condition of
`ConditionalItem`). A `condition` of `none` means no condition is
configured. -/
structure TargetOperation where
  type : Option String
  target : Option String
  condition : Option Bool
deriving DecidableEq, Repr

/-- A target operation setting value (`TargetOperationValue` in
`src/targets.ts`): a structured operation or a bare string shorthand. -/
inductive TargetOperationValue where
  | op : TargetOperation → TargetOperationValue
  | str : String → TargetOperationValue
deriving DecidableEq, Repr

/-- Target operation event types (`TargetOperationEvent` in
`src/targets.ts`). -/
inductive TargetOperationEvent where
  | BeforeDeploy : TargetOperationEvent
  | AfterDeployed : TargetOperationEvent
deriving DecidableEq, Repr

/-- A target (`Target` in `src/targets.ts`). The owning workspace is not
stored here: its only uses in the embedded code are the finalize flag and
the translator, which are passed as explicit parameters where needed. -/
structure Target where
  name : Option String
  description : Option String
  type : Option String
  beforeDeploy : List TargetOperationValue
  deployed : List TargetOperationValue
  __index : Nat
deriving DecidableEq, Repr

/-- The built-in executors reachable from the `switch (TYPE)` statement of
`executeTargetOperations`: only the open-target executor exists. -/
inductive ExecutorKind where
  | openExec : ExecutorKind
deriving DecidableEq, Repr

/-- Executor resolution (`switch (TYPE)` in `executeTargetOperations`,
`src/targets.ts`): the empty string and `"open"` map to the open-target
executor; any other type resolves to nothing (entry skipped). -/
def resolveExecutor (ty : String) : Option ExecutorKind :=
  if ty = "" then some ExecutorKind.openExec
  else if ty = "open" then some ExecutorKind.openExec
  else none

/-- Normalization of one operation value (`src/targets.ts`, lines 182-197):
a structured operation is used as-is; a bare string that is not empty after
normalization desugars to an open operation `{target: s, type: ''}`; an
empty string yields nothing. -/
def normalizeTargetOperationValue (v : TargetOperationValue) : Option TargetOperation :=
  match v with
  | TargetOperationValue.op o => some o
  | TargetOperationValue.str s =>
      if isEmptyString s then none
      else some { type := some "", target := some s, condition := none }

/-- Normalization followed by conditional-item filtering
(`src/targets.ts`, lines 199-206): `filterConditionalItems` (modelled from
the spec: an operation carrying a condition that evaluates false is
dropped) applied to the singleton normalized value, taking the first
survivor if any. -/
def operationToExecute (v : TargetOperationValue) : Option TargetOperation :=
  (normalizeTargetOperationValue v).bind
    (fun o => if o.condition.getD true then some o else none)

/-- A target operation execution context
(`TargetOperationExecutionContext` in `src/targets.ts`): args, event, the
operation, the previous executed operation context, the target and the
normalized type. Recursive through `previousOperation`, hence an
inductive. -/
inductive ExecContext where
  | mk : List String → TargetOperationEvent → TargetOperation →
         Option ExecContext → Target → String → ExecContext

/-- The `args` field of an execution context. -/
def ExecContext.args : ExecContext → List String
  | ExecContext.mk a _ _ _ _ _ => a

/-- The `event` field of an execution context. -/
def ExecContext.event : ExecContext → TargetOperationEvent
  | ExecContext.mk _ e _ _ _ _ => e

/-- The `operation` field of an execution context. -/
def ExecContext.operation : ExecContext → TargetOperation
  | ExecContext.mk _ _ o _ _ _ => o

/-- The `previousOperation` field of an execution context. -/
def ExecContext.previousOperation : ExecContext → Option ExecContext
  | ExecContext.mk _ _ _ p _ _ => p

/-- The `target` field of an execution context. -/
def ExecContext.target : ExecContext → Target
  | ExecContext.mk _ _ _ _ t _ => t

/-- The `type` field (normalized type) of an execution context. -/
def ExecContext.type : ExecContext → String
  | ExecContext.mk _ _ _ _ _ ty => ty

/-- One executor invocation observed while running
`executeTargetOperations`: the iteration index of the operation value in
the operation list, the resolved executor and the context it was called
with. -/
structure OpInvocation where
  idx : Nat
  exec : ExecutorKind
  ctx : ExecContext

/-- The per-operation loop of `executeTargetOperations`
(`src/targets.ts`, lines 176-247). `i` is the iteration index,
`prev` the `prevOperation` variable. `finalize i` is the value the
workspace finalize flag (`WORKSPACE.isInFinalizeState`) shows at the poll
at the top of iteration `i`; `execResult i` is the tri-state result the
executor invoked at iteration `i` settles with (`none` for `void`/`null`).
Returns the boolean result together with the list of executor
invocations, in order. -/
def runTargetOperations (event : TargetOperationEvent) (target : Target)
    (finalize : Nat → Bool) (execResult : Nat → Option Bool) :
    List TargetOperationValue → Nat → Option ExecContext → Bool × List OpInvocation
  | [], _, _ => (true, [])
  | v :: rest, i, prev =>
    if finalize i then (false, [])
    else
      match operationToExecute v with
      | none => runTargetOperations event target finalize execResult rest (i + 1) prev
      | some op =>
        match resolveExecutor (normalizeString op.type) with
        | none => runTargetOperations event target finalize execResult rest (i + 1) prev
        | some ex =>
          let ctx : ExecContext :=
            ExecContext.mk [] event op prev target (normalizeString op.type)
          let inv : OpInvocation := ⟨i, ex, ctx⟩
          if toBooleanSafe (execResult i) true then
            let r := runTargetOperations event target finalize execResult rest (i + 1) (some ctx)
            (r.1, inv :: r.2)
          else
            (false, [inv])

/-- The operation list `executeTargetOperations` reads for an event
(`switch (operationEvent)` in `src/targets.ts`, lines 166-174):
`deployed` for after-deployed, `beforeDeploy` for before-deploy. -/
def operationsFromTarget (t : Target) (event : TargetOperationEvent) :
    List TargetOperationValue :=
  match event with
  | TargetOperationEvent.BeforeDeploy => t.beforeDeploy
  | TargetOperationEvent.AfterDeployed => t.deployed

/-- `executeTargetOperations` (`src/targets.ts`, lines 158-248). A `none`
target returns `undefined` (modelled as `none`) at once; otherwise the
per-operation loop runs and the boolean result is returned (as `some`).
The second component is the observed list of executor invocations. -/
def executeTargetOperations (target : Option Target)
    (event : TargetOperationEvent) (finalize : Nat → Bool)
    (execResult : Nat → Option Bool) : Option Bool × List OpInvocation :=
  match target with
  | none => (none, [])
  | some t =>
    let r := runTargetOperations event t finalize execResult
               (operationsFromTarget t event) 0 none
    (some r.1, r.2)

/-- Modelled from the spec: the translator default target name (the
localized `targets.defaultName` string, localization is not under
`src/`) — "a positional default like Target #(index+1)". -/
def defaultTargetName (n : Nat) : String :=
  "Target #" ++ toString n

/-- `getTargetName` on a known-present target (`src/targets.ts`,
lines 257-270, after the null guard): the trimmed configured name, or the
translator default for position `__index + 1` when that is empty. -/
def getTargetNameOf (t : Target) : String :=
  if String.mk (trimChars (toStringSafe t.name).data) = "" then
    defaultTargetName (t.__index + 1)
  else
    String.mk (trimChars (toStringSafe t.name).data)

/-- `getTargetName` (`src/targets.ts`, lines 257-270): a missing target
returns `undefined`. -/
def getTargetName (target : Option Target) : Option String :=
  target.map getTargetNameOf

/-- Resolved name/relative-path information for a file (the
`NameAndPath` value produced by the workspace resolver
`ME.toNameAndPath`, an external collaborator of `src/pull.ts`). -/
structure NameAndPath where
  name : String
  path : String
deriving DecidableEq, Repr

/-- A registered plugin as seen by `src/pull.ts`: its normalized type tag
`__type` (the empty string is the wildcard), the `canDownload` capability
flag, and whether a `downloadFiles` function is present (the code tests
`pi.downloadFiles` for truthiness and later calls it). -/
structure Plugin where
  __type : String
  canDownload : Bool
  hasDownloadFiles : Bool
deriving DecidableEq, Repr

/-- The per-file start message the `onBeforeDownload` callback appends
(`src/pull.ts`, lines 113-116). In the source the callback always appends
this line when invoked; the descriptor below carries the lines its
before-callback appends as data. -/
def onBeforeDownload (f targetName : String) : List String :=
  [s!"Pulling file \x27{f}\x27 from \x27{targetName}\x27... "]

/-- A file-to-download descriptor (`SimpleFileToDownload` built in
`src/pull.ts`, lines 112-141): the original file path, the resolved
name-and-path information, and the log lines its attached
`onBeforeDownload` callback appends when the plugin invokes it. -/
structure FileToDownload where
  file : String
  nameAndPath : NameAndPath
  beforeLogs : List String
deriving DecidableEq, Repr

/-- The download context handed to a plugin (`DownloadContext` built in
`src/pull.ts`, lines 102-144): the filtered descriptor list and the
target. -/
structure DownloadContext where
  files : List FileToDownload
  target : Target
deriving DecidableEq, Repr

/-- One call of a plugin's `downloadFiles` with its context. -/
structure PluginInvocation where
  plugin : Plugin
  context : DownloadContext
deriving DecidableEq, Repr

/-- The observable outcome of one `pullFilesFrom` call: user-visible
warnings, output-channel log lines, the `downloadFiles` invocations made,
and the plugins given a turn by the dispatch loop (an attempt exists even
when the `downloadFiles` property is missing and the call itself throws). -/
structure PullTrace where
  warnings : List String
  logs : List String
  invocations : List PluginInvocation
  attempts : List Plugin
deriving DecidableEq, Repr

/-- Persisting a downloaded file (`deploy_helpers.writeFile` of the
result of `downloadedFile.read()`, `src/pull.ts` lines 125-130). The
filesystem/stream collaborators are external: `persistErr` is the error
the read/write step throws, if any; on success the write `(path,
content)` is performed. -/
def persistDownloadedFile (f content : String) (persistErr : Option String) :
    Except String (List (String × String)) :=
  match persistErr with
  | some e => Except.error e
  | none => Except.ok [(f, content)]

/-- The `try` block of the `onDownloadCompleted` callback
(`src/pull.ts`, lines 119-135): a set error argument is (re)thrown; else
a present downloaded result is persisted to the original path (which may
itself throw). Returns the writes performed. -/
def downloadCompletedTry (f : String) (err : Option String)
    (downloadedFile : Option String) (persistErr : Option String) :
    Except String (List (String × String)) :=
  match err with
  | some e => Except.error e
  | none =>
    match downloadedFile with
    | some content => persistDownloadedFile f content persistErr
    | none => Except.ok []

/-- The `onDownloadCompleted` callback (`src/pull.ts`, lines 117-139):
the `try` block above with its `catch` — a normal completion appends
`[OK]`, any thrown error is caught and appended as `[ERROR: ...]`. The
result is the pair (log lines, writes performed); the callback always
returns normally. -/
def onDownloadCompleted (f : String) (err : Option String)
    (downloadedFile : Option String) (persistErr : Option String) :
    List String × List (String × String) :=
  match downloadCompletedTry f err downloadedFile persistErr with
  | Except.ok ws => (["[OK]"], ws)
  | Except.error e => ([s!"[ERROR: {e}]"], [])

/-- The plugin filter predicate of `pullFilesFrom` (`src/pull.ts`,
lines 77-80): wildcard type, or exact type match with the download
capability and a `downloadFiles` function. -/
def matchesPlugin (targetType : String) (pi : Plugin) : Bool :=
  pi.__type == "" || (targetType == pi.__type && pi.canDownload && pi.hasDownloadFiles)

/-- The `PLUGINS` list of `pullFilesFrom` (`src/pull.ts`, lines 77-80):
the registered plugins, in registration order, that pass the filter. -/
def matchingPlugins (plugins : List Plugin) (targetType : String) : List Plugin :=
  plugins.filter (matchesPlugin targetType)

/-- Building one descriptor (`src/pull.ts`, lines 103-141): an
unresolvable file maps to `null` (here `none`), a resolvable one to a
descriptor carrying its before-callback log lines. -/
def mkFileToDownload (resolver : String → Option NameAndPath)
    (targetName : String) (f : String) : Option FileToDownload :=
  (resolver f).map (fun np => ⟨f, np, onBeforeDownload f targetName⟩)

/-- The log line appended for a file whose path information cannot be
detected (`src/pull.ts`, lines 106-107). -/
def unresolvedLog (f : String) : String :=
  s!"Cannot detect path information for file \x27{f}\x27!"

/-- The multi-file start banner (`src/pull.ts`, lines 98-100). -/
def startBanner (targetName : String) : String :=
  s!"Start pulling files from \x27{targetName}\x27..."

/-- The multi-file finish banner (`src/pull.ts`, lines 150-153). -/
def finishBanner (targetName : String) : String :=
  s!"Pulling files from \x27{targetName}\x27 has been finished."

/-- The loop-level catch log line (`src/pull.ts`, lines 155-158). -/
def pluginFailedLog (targetName e : String) : String :=
  s!"[ERROR] Pulling from \x27{targetName}\x27 failed: {e}"

/-- The error, if any, thrown by the `PI.downloadFiles(CTX)` call of
iteration `k` (`src/pull.ts`, lines 146-148): when the plugin has a
`downloadFiles` function the call settles with the plugin outcome oracle
at `k`; a missing function makes the call expression itself throw a
`TypeError`. -/
def pluginCallError (pi : Plugin) (k : Nat) (pluginOutcome : Nat → Option String) :
    Option String :=
  if pi.hasDownloadFiles then pluginOutcome k
  else some "TypeError: PI.downloadFiles is not a function"

/-- The `while (PLUGINS.length > 0)` loop of `pullFilesFrom`
(`src/pull.ts`, lines 91-159) over the filtered plugin list, with `k` the
iteration index. Each iteration appends a blank line, the start banner
for batches of more than one file, the resolution-failure lines, then
attempts the plugin's batch call (recorded as an invocation when the
`downloadFiles` function exists); a thrown/rejected call is caught and
logged, a successful one is followed by the finish banner for batches of
more than one file. Returns (logs, invocations, attempted plugins). -/
def runPlugins (files : List String) (t : Target) (targetName : String)
    (resolver : String → Option NameAndPath) (pluginOutcome : Nat → Option String) :
    List Plugin → Nat → List String × List PluginInvocation × List Plugin
  | [], _ => ([], [], [])
  | pi :: rest, k =>
    let ctxFiles := files.filterMap (mkFileToDownload resolver targetName)
    let resolveLogs := files.filterMap
      (fun f => if (resolver f).isNone then some (unresolvedLog f) else none)
    let callErr := pluginCallError pi k pluginOutcome
    let iterLogs :=
      [""] ++ (if files.length > 1 then [startBanner targetName] else [])
        ++ resolveLogs
        ++ (match callErr with
            | some e => [pluginFailedLog targetName e]
            | none => if files.length > 1 then [finishBanner targetName] else [])
    let iterInvs : List PluginInvocation :=
      if pi.hasDownloadFiles then [⟨pi, ⟨ctxFiles, t⟩⟩] else []
    let r := runPlugins files t targetName resolver pluginOutcome rest (k + 1)
    (iterLogs ++ r.1, iterInvs ++ r.2.1, pi :: r.2.2)

/-- `pullFilesFrom` (`src/pull.ts`, lines 58-160). An empty file list or a
missing target returns at once; an empty matching-plugin list shows the
"No matching PLUGINS found!" warning and returns; otherwise the plugin
loop runs. (The `targetNr` parameter of the source is defaulted from
`target.__index + 1` and never used afterwards, so it is omitted.) The
function itself always returns a trace: no error escapes it. -/
def pullFilesFrom (files : List String) (target : Option Target)
    (plugins : List Plugin) (resolver : String → Option NameAndPath)
    (pluginOutcome : Nat → Option String) : PullTrace :=
  if files.length < 1 then ⟨[], [], [], []⟩
  else
    match target with
    | none => ⟨[], [], [], []⟩
    | some t =>
      let targetName := getTargetNameOf t
      let targetType := normalizeString t.type
      let matched := matchingPlugins plugins targetType
      if matched.length < 1 then
        ⟨["No matching PLUGINS found!"], [], [], []⟩
      else
        let r := runPlugins files t targetName resolver pluginOutcome matched 0
        ⟨[], r.1, r.2.1, r.2.2⟩

/-- The observable outcome of one `showTargetQuickPick` call
(`src/targets.ts`, lines 350-400): whether the "No TARGETS found!"
warning was shown, whether the UI quick pick was shown, and the index
(into the filtered target list) of the target whose action was invoked,
if any. -/
structure SelectionTrace where
  warningShown : Bool
  promptShown : Bool
  invoked : Option Nat
deriving DecidableEq, Repr

/-- `showTargetQuickPick` (`src/targets.ts`, lines 350-400). The input
list is filtered to its object entries (`none` models a non-object
entry). With no quick-pick item the warning is shown and nothing runs;
with exactly one item it is selected without showing the UI; with more,
the UI collaborator is shown and `uiChoice` models its answer — the index
of the picked item, or `none` when the user cancels (an answer outside
the presented list cannot occur and is treated as no selection). Only a
made selection invokes the item's action. -/
def showTargetQuickPick (targets : List (Option Target)) (uiChoice : Option Nat) :
    SelectionTrace :=
  let ts := targets.filterMap id
  if ts.length < 1 then ⟨true, false, none⟩
  else if ts.length = 1 then ⟨false, false, some 0⟩
  else
    match uiChoice with
    | none => ⟨false, true, none⟩
    | some i => ⟨false, true, if i < ts.length then some i else none⟩

/-- Unfolding lemma for the nil case of the operation loop. -/
lemma runTargetOperations_nil (event : TargetOperationEvent) (t : Target)
    (finalize : Nat → Bool) (execResult : Nat → Option Bool)
    (i : Nat) (prev : Option ExecContext) :
    runTargetOperations event t finalize execResult [] i prev = (true, []) := rfl

/-- Unfolding lemma for the cons case of the operation loop. -/
lemma runTargetOperations_cons (event : TargetOperationEvent) (t : Target)
    (finalize : Nat → Bool) (execResult : Nat → Option Bool)
    (v : TargetOperationValue) (rest : List TargetOperationValue)
    (i : Nat) (prev : Option ExecContext) :
    runTargetOperations event t finalize execResult (v :: rest) i prev =
      if finalize i then (false, [])
      else
        match operationToExecute v with
        | none => runTargetOperations event t finalize execResult rest (i + 1) prev
        | some op =>
          match resolveExecutor (normalizeString op.type) with
          | none => runTargetOperations event t finalize execResult rest (i + 1) prev
          | some ex =>
            let ctx : ExecContext :=
              ExecContext.mk [] event op prev t (normalizeString op.type)
            let inv : OpInvocation := ⟨i, ex, ctx⟩
            if toBooleanSafe (execResult i) true then
              let r := runTargetOperations event t finalize execResult rest (i + 1) (some ctx)
              (r.1, inv :: r.2)
            else
              (false, [inv]) := rfl

/-- C10: `executeTargetOperations` called with a missing target returns
`undefined` (neither `true` nor `false`) at once, invoking no executor and
reading no workspace state — the result does not depend on the finalize
flag or on any executor outcome — while for a present target the result is
always a boolean. -/
theorem executeTargetOperations_none_target :
    (∀ (event : TargetOperationEvent) (finalize : Nat → Bool)
       (execResult : Nat → Option Bool),
       executeTargetOperations none event finalize execResult = (none, [])) ∧
    (∀ (t : Target) (event : TargetOperationEvent) (finalize : Nat → Bool)
       (execResult : Nat → Option Bool), ∃ b : Bool,
       (executeTargetOperations (some t) event finalize execResult).1 = some b) := by
  constructor
  · intro event finalize execResult
    rfl
  · intro t event finalize execResult
    exact ⟨_, rfl⟩

/-- C2: with (at least) three operations in the list for the event, when
operations 1 and 2 reach their executor, the first executor continues, the
second resolves to `false`, and the workspace is not finalizing at those
iterations, `executeTargetOperations` invokes exactly the executors of
operations 1 and 2 (operation 3 and everything later never runs) and
returns `false`. -/
theorem executeTargetOperations_second_op_aborts
    (t : Target) (event : TargetOperationEvent)
    (finalize : Nat → Bool) (execResult : Nat → Option Bool)
    (v1 v2 v3 : TargetOperationValue) (rest : List TargetOperationValue)
    (o1 o2 : TargetOperation) (e1 e2 : ExecutorKind)
    (hops : operationsFromTarget t event = v1 :: v2 :: v3 :: rest)
    (hf0 : finalize 0 = false) (hf1 : finalize 1 = false)
    (h1 : operationToExecute v1 = some o1)
    (h1e : resolveExecutor (normalizeString o1.type) = some e1)
    (h2 : operationToExecute v2 = some o2)
    (h2e : resolveExecutor (normalizeString o2.type) = some e2)
    (hr0 : toBooleanSafe (execResult 0) true = true)
    (hr1 : toBooleanSafe (execResult 1) true = false) :
    (executeTargetOperations (some t) event finalize execResult).1 = some false ∧
    (executeTargetOperations (some t) event finalize execResult).2.map OpInvocation.idx
      = [0, 1] := by
  simp only [executeTargetOperations, hops, runTargetOperations_cons,
    hf0, hf1, h1, h1e, h2, h2e, hr0, hr1, if_false, if_true, Bool.false_eq_true,
    List.map_cons]
  simp

/-- Concrete target used by the C2 witness: three bare-string operations. -/
def wT2 : Target :=
  ⟨some "T", none, none,
   [TargetOperationValue.str "a", TargetOperationValue.str "b", TargetOperationValue.str "c"],
   [], 0⟩

/-- Concrete executor outcomes used by the C2 witness: the second
invocation resolves to `false`, the others to `void`. -/
def wER2 : Nat → Option Bool := fun i => if i = 1 then some false else none

/-- Witness for C2 at a concrete three-operation chain. -/
theorem executeTargetOperations_second_op_aborts_witness :
    (executeTargetOperations (some wT2) TargetOperationEvent.BeforeDeploy
      (fun _ => false) wER2).1 = some false ∧
    (executeTargetOperations (some wT2) TargetOperationEvent.BeforeDeploy
      (fun _ => false) wER2).2.map OpInvocation.idx = [0, 1] :=
  executeTargetOperations_second_op_aborts wT2 TargetOperationEvent.BeforeDeploy
    (fun _ => false) wER2
    (TargetOperationValue.str "a") (TargetOperationValue.str "b")
    (TargetOperationValue.str "c") []
    ⟨some "", some "a", none⟩ ⟨some "", some "b", none⟩
    ExecutorKind.openExec ExecutorKind.openExec
    rfl rfl rfl (by decide) (by decide) (by decide) (by decide) (by decide) (by decide)

/-- Once the finalize flag reads true at the top of iteration `i + k` of
the loop, the loop result is `false` and every executor invocation made
belongs to an earlier iteration. -/
lemma runTargetOperations_finalize_stops (event : TargetOperationEvent) (t : Target)
    (finalize : Nat → Bool) (execResult : Nat → Option Bool) :
    ∀ (ops : List TargetOperationValue) (k i : Nat) (prev : Option ExecContext),
      k < ops.length → finalize (i + k) = true →
      (runTargetOperations event t finalize execResult ops i prev).1 = false ∧
      ∀ inv ∈ (runTargetOperations event t finalize execResult ops i prev).2,
        inv.idx < i + k := by
  intro ops
  induction ops with
  | nil =>
    intro k i prev hk _
    exact absurd hk (by simp)
  | cons v rest ih =>
    intro k i prev hk hfin
    by_cases hfi : finalize i = true
    · rw [runTargetOperations_cons]
      simp [hfi]
    · rw [Bool.not_eq_true] at hfi
      match k, hk with
      | 0, _ =>
        rw [Nat.add_zero] at hfin
        rw [hfin] at hfi
        exact absurd hfi (by simp)
      | k' + 1, hk =>
        have hk' : k' < rest.length := by
          simpa [Nat.succ_lt_succ_iff] using hk
        have hfin' : finalize (i + 1 + k') = true := by
          have harith : i + 1 + k' = i + (k' + 1) := by omega
          rw [harith]
          exact hfin
        cases hop : operationToExecute v with
        | none =>
          rw [runTargetOperations_cons]
          simp only [hfi, Bool.false_eq_true, if_false, hop]
          have h := ih k' (i + 1) prev hk' hfin'
          refine ⟨h.1, ?_⟩
          intro inv hinv
          have := h.2 inv hinv
          omega
        | some op =>
          cases hex : resolveExecutor (normalizeString op.type) with
          | none =>
            rw [runTargetOperations_cons]
            simp only [hfi, Bool.false_eq_true, if_false, hop, hex]
            have h := ih k' (i + 1) prev hk' hfin'
            refine ⟨h.1, ?_⟩
            intro inv hinv
            have := h.2 inv hinv
            omega
          | some ex =>
            by_cases habort : toBooleanSafe (execResult i) true = true
            · rw [runTargetOperations_cons]
              simp only [hfi, Bool.false_eq_true, if_false, hop, hex, habort, if_true]
              have h := ih k' (i + 1)
                (some (ExecContext.mk [] event op prev t (normalizeString op.type)))
                hk' hfin'
              refine ⟨h.1, ?_⟩
              intro inv hinv
              rcases List.mem_cons.mp hinv with hhd | htl
              · subst hhd
                simp only []
                omega
              · have := h.2 inv htl
                omega
            · rw [Bool.not_eq_true] at habort
              rw [runTargetOperations_cons]
              simp only [hfi, Bool.false_eq_true, if_false, hop, hex, habort]
              refine ⟨trivial, ?_⟩
              intro inv hinv
              rcases List.mem_cons.mp hinv with hhd | htl
              · subst hhd
                simp only []
                omega
              · exact absurd htl (by simp)

/-- C3: if the workspace finalize flag reads true at the top of iteration
`i` (an iteration that exists, i.e. `i` is below the operation-list
length), `executeTargetOperations` returns `false` and no operation of
iteration `i` or later is ever executed: every invocation made has an
earlier index. -/
theorem executeTargetOperations_finalize_stops
    (t : Target) (event : TargetOperationEvent)
    (finalize : Nat → Bool) (execResult : Nat → Option Bool) (i : Nat)
    (hi : i < (operationsFromTarget t event).length)
    (hf : finalize i = true) :
    (executeTargetOperations (some t) event finalize execResult).1 = some false ∧
    ∀ inv ∈ (executeTargetOperations (some t) event finalize execResult).2,
      inv.idx < i := by
  have h := runTargetOperations_finalize_stops event t finalize execResult
    (operationsFromTarget t event) i 0 none hi (by simpa using hf)
  constructor
  · show some (runTargetOperations event t finalize execResult
      (operationsFromTarget t event) 0 none).1 = some false
    rw [h.1]
  · intro inv hinv
    have := h.2 inv hinv
    omega

/-- Concrete target used by the C3 witness. -/
def wT3 : Target :=
  ⟨some "T", none, none,
   [TargetOperationValue.str "a", TargetOperationValue.str "b", TargetOperationValue.str "c"],
   [], 0⟩

/-- Witness for C3: the finalize flag turns on before iteration 1, so only
operation 0 runs and the call returns `false`. -/
theorem executeTargetOperations_finalize_stops_witness :
    (executeTargetOperations (some wT3) TargetOperationEvent.BeforeDeploy
      (fun n => n != 0) (fun _ => none)).1 = some false ∧
    (executeTargetOperations (some wT3) TargetOperationEvent.BeforeDeploy
      (fun n => n != 0) (fun _ => none)).2.map OpInvocation.idx = [0] := by
  have h := executeTargetOperations_finalize_stops wT3 TargetOperationEvent.BeforeDeploy
    (fun n => n != 0) (fun _ => none) 1 (by decide) (by decide)
  exact ⟨h.1, by decide⟩

/-- A target whose operation list for before-deploy is a single operation
value. -/
def singleOpTarget (name desc ty : Option String) (idx : Nat)
    (v : TargetOperationValue) : Target :=
  ⟨name, desc, ty, [v], [], idx⟩

/-- Counterexample to C4: a bare string operation and the structured
operation `{type: "open", target: <same string>}` do NOT produce exactly
the same executor invocation — the execution contexts differ in their
normalized `type` field (the bare string desugars to the type `''`, not
`"open"`), even though the same built-in executor handles both. -/
theorem executeTargetOperations_string_shorthand_counterexample :
    ((executeTargetOperations
        (some (singleOpTarget (some "T") none none 0
          (TargetOperationValue.str "C:\\file.txt")))
        TargetOperationEvent.BeforeDeploy (fun _ => false) (fun _ => none)).2.map
          (fun inv => inv.ctx.type) = [""]) ∧
    ((executeTargetOperations
        (some (singleOpTarget (some "T") none none 0
          (TargetOperationValue.op ⟨some "open", some "C:\\file.txt", none⟩)))
        TargetOperationEvent.BeforeDeploy (fun _ => false) (fun _ => none)).2.map
          (fun inv => inv.ctx.type) = ["open"]) ∧
    ("" : String) ≠ "open" := by
  refine ⟨by decide, by decide, by decide⟩

/-- C4 (amended): a bare non-empty string operation value `s` and the
structured operation `{type: "open", target: s}` are both dispatched to
the same built-in open executor, exactly once, with the same operation
target payload `s` and the same overall result; but the invocations are
not literally identical — the context's normalized type is `''` for the
bare string (whose desugared operation carries `type: ''`) and `"open"`
for the structured operation. -/
theorem executeTargetOperations_string_shorthand_open
    (name desc ty : Option String) (idx : Nat) (s : String)
    (finalize : Nat → Bool) (execResult : Nat → Option Bool)
    (hs : isEmptyString s = false) (hf0 : finalize 0 = false) :
    (executeTargetOperations
        (some (singleOpTarget name desc ty idx (TargetOperationValue.str s)))
        TargetOperationEvent.BeforeDeploy finalize execResult).2.map OpInvocation.exec
      = [ExecutorKind.openExec] ∧
    (executeTargetOperations
        (some (singleOpTarget name desc ty idx
          (TargetOperationValue.op ⟨some "open", some s, none⟩)))
        TargetOperationEvent.BeforeDeploy finalize execResult).2.map OpInvocation.exec
      = [ExecutorKind.openExec] ∧
    (executeTargetOperations
        (some (singleOpTarget name desc ty idx (TargetOperationValue.str s)))
        TargetOperationEvent.BeforeDeploy finalize execResult).2.map
          (fun inv => inv.ctx.operation.target) = [some s] ∧
    (executeTargetOperations
        (some (singleOpTarget name desc ty idx
          (TargetOperationValue.op ⟨some "open", some s, none⟩)))
        TargetOperationEvent.BeforeDeploy finalize execResult).2.map
          (fun inv => inv.ctx.operation.target) = [some s] ∧
    (executeTargetOperations
        (some (singleOpTarget name desc ty idx (TargetOperationValue.str s)))
        TargetOperationEvent.BeforeDeploy finalize execResult).2.map
          (fun inv => inv.ctx.type) = [""] ∧
    (executeTargetOperations
        (some (singleOpTarget name desc ty idx
          (TargetOperationValue.op ⟨some "open", some s, none⟩)))
        TargetOperationEvent.BeforeDeploy finalize execResult).2.map
          (fun inv => inv.ctx.type) = ["open"] ∧
    (executeTargetOperations
        (some (singleOpTarget name desc ty idx (TargetOperationValue.str s)))
        TargetOperationEvent.BeforeDeploy finalize execResult).1
      = (executeTargetOperations
        (some (singleOpTarget name desc ty idx
          (TargetOperationValue.op ⟨some "open", some s, none⟩)))
        TargetOperationEvent.BeforeDeploy finalize execResult).1 := by
  have hopen : normalizeString (some "open") = "open" := by decide
  have hempty : normalizeString (some "") = "" := by decide
  have hres : resolveExecutor "" = some ExecutorKind.openExec := by decide
  have hresOpen : resolveExecutor "open" = some ExecutorKind.openExec := by decide
  have hs1 : operationToExecute (TargetOperationValue.str s)
      = some ⟨some "", some s, none⟩ := by
    simp [operationToExecute, normalizeTargetOperationValue, hs]
  have hs2 : operationToExecute
      (TargetOperationValue.op ⟨some "open", some s, none⟩)
      = some ⟨some "open", some s, none⟩ := by
    simp [operationToExecute, normalizeTargetOperationValue]
  by_cases hab : toBooleanSafe (execResult 0) true = true
  · simp [executeTargetOperations, singleOpTarget, operationsFromTarget,
      runTargetOperations_cons, runTargetOperations_nil, hf0, hs1, hs2,
      hopen, hempty, hres, hresOpen, hab,
      ExecContext.operation, ExecContext.type]
  · rw [Bool.not_eq_true] at hab
    simp [executeTargetOperations, singleOpTarget, operationsFromTarget,
      runTargetOperations_cons, runTargetOperations_nil, hf0, hs1, hs2,
      hopen, hempty, hres, hresOpen, hab,
      ExecContext.operation, ExecContext.type]

/-- Witness for the amended C4 at the concrete string of the spec. -/
theorem executeTargetOperations_string_shorthand_open_witness :
    (executeTargetOperations
        (some (singleOpTarget (some "T") none none 0
          (TargetOperationValue.str "C:\\file.txt")))
        TargetOperationEvent.BeforeDeploy (fun _ => false) (fun _ => none)).2.map
          OpInvocation.exec = [ExecutorKind.openExec] ∧
    (executeTargetOperations
        (some (singleOpTarget (some "T") none none 0
          (TargetOperationValue.op ⟨some "open", some "C:\\file.txt", none⟩)))
        TargetOperationEvent.BeforeDeploy (fun _ => false) (fun _ => none)).2.map
          (fun inv => inv.ctx.operation.target) = [some "C:\\file.txt"] := by
  have h := executeTargetOperations_string_shorthand_open (some "T") none none 0
    "C:\\file.txt" (fun _ => false) (fun _ => none) (by decide) rfl
  exact ⟨h.1, h.2.2.2.1⟩

/-- The dispatch loop gives every plugin of its list exactly one turn, in
order: the attempted-plugins component is the list itself. -/
lemma runPlugins_attempts (files : List String) (t : Target) (tn : String)
    (res : String → Option NameAndPath) (out : Nat → Option String) :
    ∀ (l : List Plugin) (k : Nat),
      (runPlugins files t tn res out l k).2.2 = l := by
  intro l
  induction l with
  | nil => intro k; rfl
  | cons p rest ih =>
    intro k
    simp only [runPlugins]
    rw [ih]

/-- When every plugin of the list has a `downloadFiles` function, the
`downloadFiles` invocations are exactly one per plugin, in list order. -/
lemma runPlugins_inv_plugins (files : List String) (t : Target) (tn : String)
    (res : String → Option NameAndPath) (out : Nat → Option String) :
    ∀ (l : List Plugin) (k : Nat), (∀ p ∈ l, p.hasDownloadFiles = true) →
      (runPlugins files t tn res out l k).2.1.map PluginInvocation.plugin = l := by
  intro l
  induction l with
  | nil => intro k _; rfl
  | cons p rest ih =>
    intro k h
    have hp : p.hasDownloadFiles = true := h p (List.mem_cons_self p rest)
    simp only [runPlugins, hp, if_true, List.map_append, List.map_cons, List.map_nil]
    rw [ih (k + 1) (fun q hq => h q (List.mem_cons_of_mem p hq))]
    rfl

/-- Every `downloadFiles` invocation of the loop carries the same context:
the descriptors of the resolvable files, in file order, and the target. -/
lemma runPlugins_inv_context (files : List String) (t : Target) (tn : String)
    (res : String → Option NameAndPath) (out : Nat → Option String) :
    ∀ (l : List Plugin) (k : Nat),
      ∀ inv ∈ (runPlugins files t tn res out l k).2.1,
        inv.context = ⟨files.filterMap (mkFileToDownload res tn), t⟩ := by
  intro l
  induction l with
  | nil => intro k inv hinv; exact absurd hinv (by simp [runPlugins])
  | cons p rest ih =>
    intro k inv hinv
    simp only [runPlugins] at hinv
    rcases List.mem_append.mp hinv with hhd | htl
    · by_cases hp : p.hasDownloadFiles = true
      · rw [if_pos hp] at hhd
        rcases List.mem_singleton.mp hhd with rfl
        rfl
      · rw [if_neg hp] at hhd
        exact absurd hhd (by simp)
    · exact ih (k + 1) inv htl

/-- When every plugin of the list has a `downloadFiles` function and the
batch call of the `j`-th of them throws, the loop-level catch appends the
corresponding error line. -/
lemma runPlugins_err_log (files : List String) (t : Target) (tn : String)
    (res : String → Option NameAndPath) (out : Nat → Option String) :
    ∀ (l : List Plugin) (k : Nat), (∀ p ∈ l, p.hasDownloadFiles = true) →
      ∀ j, j < l.length → ∀ e, out (k + j) = some e →
        pluginFailedLog tn e ∈ (runPlugins files t tn res out l k).1 := by
  intro l
  induction l with
  | nil =>
    intro k _ j hj
    exact absurd hj (by simp)
  | cons p rest ih =>
    intro k h j hj e he
    have hp : p.hasDownloadFiles = true := h p (List.mem_cons_self p rest)
    simp only [runPlugins]
    cases j with
    | zero =>
      rw [Nat.add_zero] at he
      apply List.mem_append_left
      simp [pluginCallError, hp, he]
    | succ j' =>
      apply List.mem_append_right
      have hj' : j' < rest.length := by simpa [Nat.succ_lt_succ_iff] using hj
      have he' : out (k + 1 + j') = some e := by
        have harith : k + 1 + j' = k + (j' + 1) := by omega
        rw [harith]
        exact he
      exact ih (k + 1) (fun q hq => h q (List.mem_cons_of_mem p hq)) j' hj' e he'

/-- With a batch of more than one file, the loop logs the start banner in
its first iteration. -/
lemma runPlugins_start_banner (files : List String) (t : Target) (tn : String)
    (res : String → Option NameAndPath) (out : Nat → Option String)
    (p : Plugin) (rest : List Plugin) (k : Nat)
    (hlen : 1 < files.length) :
    startBanner tn ∈ (runPlugins files t tn res out (p :: rest) k).1 := by
  simp only [runPlugins]
  apply List.mem_append_left
  apply List.mem_append_left
  apply List.mem_append_left
  apply List.mem_append_right
  simp [hlen]

/-- With a batch of at most one file, every log line of the loop is a
blank line, a path-resolution failure line or a loop-level error line: in
particular no start/finish banner block is emitted. -/
lemma runPlugins_logs_shape (files : List String) (t : Target) (tn : String)
    (res : String → Option NameAndPath) (out : Nat → Option String)
    (hlen : files.length ≤ 1) :
    ∀ (l : List Plugin) (k : Nat),
      ∀ x ∈ (runPlugins files t tn res out l k).1,
        x = "" ∨ (∃ f, x = unresolvedLog f) ∨ ∃ e, x = pluginFailedLog tn e := by
  have hnot : ¬ (1 < files.length) := by omega
  intro l
  induction l with
  | nil =>
    intro k x hx
    exact absurd hx (by simp [runPlugins])
  | cons p rest ih =>
    intro k x hx
    simp only [runPlugins, if_neg hnot, List.append_nil, List.nil_append] at hx
    rcases List.mem_append.mp hx with hit | htl
    · rcases List.mem_append.mp hit with hpre | herr
      · rcases List.mem_append.mp hpre with hblank | hres
        · left
          simpa using hblank
        · right; left
          rcases List.mem_filterMap.mp hres with ⟨f, _, hf⟩
          refine ⟨f, ?_⟩
          by_cases hr : (res f).isNone
          · rw [if_pos hr] at hf
            exact (Option.some_injective _ hf).symm
          · rw [if_neg hr] at hf
            exact absurd hf (by simp)
      · right; right
        cases hc : pluginCallError p k out with
        | none =>
          rw [hc] at herr
          exact absurd herr (by simp)
        | some e =>
          rw [hc] at herr
          exact ⟨e, (List.mem_singleton.mp herr)⟩
    · exact ih (k + 1) x htl

/-- Unfolding of `pullFilesFrom` in the dispatching case: non-empty file
list, present target, non-empty matching-plugin list. -/
lemma pullFilesFrom_eq (files : List String) (t : Target) (plugins : List Plugin)
    (res : String → Option NameAndPath) (out : Nat → Option String)
    (hf : files ≠ [])
    (hm : matchingPlugins plugins (normalizeString t.type) ≠ []) :
    pullFilesFrom files (some t) plugins res out =
      ⟨[],
       (runPlugins files t (getTargetNameOf t) res out
         (matchingPlugins plugins (normalizeString t.type)) 0).1,
       (runPlugins files t (getTargetNameOf t) res out
         (matchingPlugins plugins (normalizeString t.type)) 0).2.1,
       (runPlugins files t (getTargetNameOf t) res out
         (matchingPlugins plugins (normalizeString t.type)) 0).2.2⟩ := by
  have h1 : ¬ (files.length < 1) := by
    simpa [Nat.lt_one_iff, List.length_eq_zero] using hf
  have h2 : ¬ ((matchingPlugins plugins (normalizeString t.type)).length < 1) := by
    simpa [Nat.lt_one_iff, List.length_eq_zero] using hm
  simp [pullFilesFrom, h1, h2]

/-- C1: for a non-empty file list and a target matched by at least one
registered plugin, each of which provides a `downloadFiles` function,
`pullFilesFrom` invokes every matching plugin's `downloadFiles` exactly
once, in registry order — whatever each batch call does, including
throwing — the error of a throwing batch call is caught at the loop level
and logged, no warning is raised, and `pullFilesFrom` itself completes
with a trace (it never rejects because of a plugin failure). -/
theorem pullFilesFrom_invokes_all_matching_plugins
    (files : List String) (t : Target) (plugins : List Plugin)
    (res : String → Option NameAndPath) (out : Nat → Option String)
    (hf : files ≠ [])
    (hm : matchingPlugins plugins (normalizeString t.type) ≠ [])
    (hdl : ∀ p ∈ matchingPlugins plugins (normalizeString t.type),
      p.hasDownloadFiles = true) :
    (pullFilesFrom files (some t) plugins res out).invocations.map
        PluginInvocation.plugin
      = matchingPlugins plugins (normalizeString t.type) ∧
    (pullFilesFrom files (some t) plugins res out).warnings = [] ∧
    ∀ j e, j < (matchingPlugins plugins (normalizeString t.type)).length →
      out j = some e →
      pluginFailedLog (getTargetNameOf t) e
        ∈ (pullFilesFrom files (some t) plugins res out).logs := by
  rw [pullFilesFrom_eq files t plugins res out hf hm]
  refine ⟨?_, rfl, ?_⟩
  · exact runPlugins_inv_plugins files t (getTargetNameOf t) res out
      (matchingPlugins plugins (normalizeString t.type)) 0 hdl
  · intro j e hj he
    exact runPlugins_err_log files t (getTargetNameOf t) res out
      (matchingPlugins plugins (normalizeString t.type)) 0 hdl j hj e
      (by simpa using he)

/-- Concrete wildcard plugin for witnesses. -/
def wPlg1 : Plugin := ⟨"", true, true⟩

/-- Concrete type-matching plugin for witnesses. -/
def wPlg2 : Plugin := ⟨"ftp", true, true⟩

/-- Concrete non-matching plugin for witnesses. -/
def wPlg3 : Plugin := ⟨"sftp", true, true⟩

/-- Concrete pull target for witnesses. -/
def wT1 : Target := ⟨some "T", none, some "ftp", [], [], 0⟩

/-- Concrete path resolver for witnesses: everything resolves. -/
def wRes : String → Option NameAndPath := fun f => some ⟨f, "a.txt"⟩

/-- Concrete plugin outcomes for witnesses: the first batch call throws
`boom`, the rest succeed. -/
def wOut : Nat → Option String := fun k => if k = 0 then some "boom" else none

/-- Witness for C1: two matching plugins (a wildcard and a type match)
out of three registered; the first batch call throws, both matching
plugins are still invoked exactly once, in order, and the error is
logged. -/
theorem pullFilesFrom_invokes_all_matching_plugins_witness :
    (pullFilesFrom ["a.txt"] (some wT1) [wPlg1, wPlg2, wPlg3] wRes wOut).invocations.map
        PluginInvocation.plugin
      = matchingPlugins [wPlg1, wPlg2, wPlg3] (normalizeString wT1.type) ∧
    pluginFailedLog (getTargetNameOf wT1) "boom"
      ∈ (pullFilesFrom ["a.txt"] (some wT1) [wPlg1, wPlg2, wPlg3] wRes wOut).logs ∧
    matchingPlugins [wPlg1, wPlg2, wPlg3] (normalizeString wT1.type)
      = [wPlg1, wPlg2] := by
  have h := pullFilesFrom_invokes_all_matching_plugins ["a.txt"] wT1
    [wPlg1, wPlg2, wPlg3] wRes wOut (by decide) (by decide) (by decide)
  exact ⟨h.1, h.2.2 0 "boom" (by decide) (by decide), by decide⟩

/-- C5: the plugins `pullFilesFrom` gives a turn to are exactly the
registered plugins, in registration order, whose normalized type is the
empty-string wildcard (included regardless of capability) or equals the
target's normalized type while also having the download capability and a
download operation; when that set is empty, the "no matching plugins"
warning is shown and the call returns with no transfer attempt and no
error. -/
theorem pullFilesFrom_plugin_resolution
    (files : List String) (t : Target) (plugins : List Plugin)
    (res : String → Option NameAndPath) (out : Nat → Option String)
    (hf : files ≠ []) :
    (∀ p, p ∈ matchingPlugins plugins (normalizeString t.type) ↔
      (p ∈ plugins ∧ (p.__type = "" ∨
        (normalizeString t.type = p.__type ∧ p.canDownload = true ∧
         p.hasDownloadFiles = true)))) ∧
    (matchingPlugins plugins (normalizeString t.type)).Sublist plugins ∧
    (matchingPlugins plugins (normalizeString t.type) = [] →
      pullFilesFrom files (some t) plugins res out
        = ⟨["No matching PLUGINS found!"], [], [], []⟩) ∧
    (matchingPlugins plugins (normalizeString t.type) ≠ [] →
      (pullFilesFrom files (some t) plugins res out).attempts
          = matchingPlugins plugins (normalizeString t.type) ∧
      (pullFilesFrom files (some t) plugins res out).warnings = []) := by
  have h1 : ¬ (files.length < 1) := by
    simpa [Nat.lt_one_iff, List.length_eq_zero] using hf
  refine ⟨?_, ?_, ?_, ?_⟩
  · intro p
    simp [matchingPlugins, matchesPlugin, List.mem_filter, and_assoc]
  · exact List.filter_sublist plugins
  · intro hempty
    simp [pullFilesFrom, h1, hempty]
  · intro hne
    rw [pullFilesFrom_eq files t plugins res out hf hne]
    exact ⟨runPlugins_attempts files t (getTargetNameOf t) res out
      (matchingPlugins plugins (normalizeString t.type)) 0, rfl⟩

/-- Witness for C5: with a wildcard plugin and a non-matching plugin
registered, only the wildcard is attempted and no warning is shown. -/
theorem pullFilesFrom_plugin_resolution_witness :
    (pullFilesFrom ["a.txt"] (some wT1) [wPlg1, wPlg3] wRes wOut).attempts
      = matchingPlugins [wPlg1, wPlg3] (normalizeString wT1.type) ∧
    (pullFilesFrom ["a.txt"] (some wT1) [wPlg1, wPlg3] wRes wOut).warnings = [] ∧
    matchingPlugins [wPlg1, wPlg3] (normalizeString wT1.type) = [wPlg1] := by
  have h := pullFilesFrom_plugin_resolution ["a.txt"] wT1 [wPlg1, wPlg3]
    wRes wOut (by decide)
  have hne : matchingPlugins [wPlg1, wPlg3] (normalizeString wT1.type) ≠ [] := by decide
  exact ⟨(h.2.2.2 hne).1, (h.2.2.2 hne).2, by decide⟩

/-- The loop logs the path-resolution failure line of every unresolvable
file of the batch (at least once: in its first iteration). -/
lemma runPlugins_unresolved_log (files : List String) (t : Target) (tn : String)
    (res : String → Option NameAndPath) (out : Nat → Option String)
    (p : Plugin) (rest : List Plugin) (k : Nat)
    (f : String) (hfm : f ∈ files) (hr : res f = none) :
    unresolvedLog f ∈ (runPlugins files t tn res out (p :: rest) k).1 := by
  simp only [runPlugins]
  apply List.mem_append_left
  apply List.mem_append_left
  apply List.mem_append_right
  exact List.mem_filterMap.mpr ⟨f, hfm, by simp [hr]⟩

/-- Concrete target for the C6 counterexample and witness. -/
def cT6 : Target := ⟨some "T", none, some "ftp", [], [], 0⟩

/-- Concrete matching plugin for the C6 counterexample and witness. -/
def cP6 : Plugin := ⟨"ftp", true, true⟩

/-- Counterexample to C6: in a single-file batch the descriptor's
before-callback still logs the per-file start message — the claim says no
per-file start message is logged for a single-file batch. -/
theorem pullFilesFrom_single_file_before_log_counterexample :
    ((pullFilesFrom ["a.txt"] (some cT6) [cP6]
        (fun f => some ⟨f, "a.txt"⟩) (fun _ => none)).invocations.map
          (fun inv => inv.context.files.map FileToDownload.beforeLogs))
      = [[["Pulling file \x27a.txt\x27 from \x27T\x27... "]]] ∧
    (["Pulling file \x27a.txt\x27 from \x27T\x27... "] : List String) ≠ [] := by
  exact ⟨by decide, by decide⟩

/-- C6 (amended): the before-callback of every dispatched descriptor logs
the per-file start message whatever the batch size — a single-file batch
included; what is gated on the batch containing more than one file is the
batch-level start/finish banner: it is logged for a multi-file batch,
while for a batch of at most one file every log line is a blank line, a
path-resolution failure line or a loop-level error line (no banner). -/
theorem pullFilesFrom_before_message_unconditional
    (files : List String) (t : Target) (plugins : List Plugin)
    (res : String → Option NameAndPath) (out : Nat → Option String)
    (hf : files ≠ []) :
    (∀ inv ∈ (pullFilesFrom files (some t) plugins res out).invocations,
       ∀ fd ∈ inv.context.files,
         fd.beforeLogs = onBeforeDownload fd.file (getTargetNameOf t)) ∧
    (1 < files.length → matchingPlugins plugins (normalizeString t.type) ≠ [] →
       startBanner (getTargetNameOf t)
         ∈ (pullFilesFrom files (some t) plugins res out).logs) ∧
    (files.length ≤ 1 →
       ∀ x ∈ (pullFilesFrom files (some t) plugins res out).logs,
         x = "" ∨ (∃ g, x = unresolvedLog g) ∨
           ∃ e, x = pluginFailedLog (getTargetNameOf t) e) := by
  have h1 : ¬ (files.length < 1) := by
    simpa [Nat.lt_one_iff, List.length_eq_zero] using hf
  by_cases hm : matchingPlugins plugins (normalizeString t.type) = []
  · have htr : pullFilesFrom files (some t) plugins res out
        = ⟨["No matching PLUGINS found!"], [], [], []⟩ := by
      simp [pullFilesFrom, h1, hm]
    rw [htr]
    refine ⟨?_, ?_, ?_⟩
    · intro inv hinv
      exact absurd hinv (by simp)
    · intro _ hne
      exact absurd hm hne
    · intro _ x hx
      exact absurd hx (by simp)
  · rw [pullFilesFrom_eq files t plugins res out hf hm]
    refine ⟨?_, ?_, ?_⟩
    · intro inv hinv fd hfd
      have hctx := runPlugins_inv_context files t (getTargetNameOf t) res out
        (matchingPlugins plugins (normalizeString t.type)) 0 inv hinv
      rw [hctx] at hfd
      rcases List.mem_filterMap.mp hfd with ⟨g, _, hg⟩
      rcases Option.map_eq_some'.mp hg with ⟨np, _, hfd_eq⟩
      rw [← hfd_eq]
    · intro hlen hne
      rcases List.exists_cons_of_ne_nil hm with ⟨p, rest, hcons⟩
      rw [hcons]
      exact runPlugins_start_banner files t (getTargetNameOf t) res out p rest 0 hlen
    · intro hlen x hx
      exact runPlugins_logs_shape files t (getTargetNameOf t) res out hlen
        (matchingPlugins plugins (normalizeString t.type)) 0 x hx

/-- Witness for the amended C6: a two-file batch logs the start banner. -/
theorem pullFilesFrom_before_message_unconditional_witness :
    startBanner (getTargetNameOf cT6)
      ∈ (pullFilesFrom ["a.txt", "b.txt"] (some cT6) [cP6] wRes wOut).logs := by
  have h := pullFilesFrom_before_message_unconditional ["a.txt", "b.txt"] cT6
    [cP6] wRes wOut (by decide)
  exact h.2.1 (by decide) (by decide)

/-- Concrete resolver for the C7 witness: `bad.txt` is unresolvable. -/
def wRes7 : String → Option NameAndPath :=
  fun f => if f = "bad.txt" then none else some ⟨f, "x"⟩

/-- C7: a file whose name/path information cannot be resolved is logged
and excluded from every dispatched descriptor list, while every
resolvable file of the same batch still gets its descriptor (unresolvable
files never block the rest of the batch: each invocation's descriptor
list is exactly the resolvable files, in order). -/
theorem pullFilesFrom_unresolvable_excluded
    (files : List String) (t : Target) (plugins : List Plugin)
    (res : String → Option NameAndPath) (out : Nat → Option String)
    (hf : files ≠ [])
    (hm : matchingPlugins plugins (normalizeString t.type) ≠ []) :
    (∀ inv ∈ (pullFilesFrom files (some t) plugins res out).invocations,
       inv.context
         = ⟨files.filterMap (mkFileToDownload res (getTargetNameOf t)), t⟩) ∧
    (∀ f ∈ files, res f = none →
       unresolvedLog f ∈ (pullFilesFrom files (some t) plugins res out).logs ∧
       ∀ inv ∈ (pullFilesFrom files (some t) plugins res out).invocations,
         ∀ fd ∈ inv.context.files, ¬ (fd.file = f)) ∧
    (∀ f ∈ files, ∀ np, res f = some np →
       ∀ inv ∈ (pullFilesFrom files (some t) plugins res out).invocations,
         FileToDownload.mk f np (onBeforeDownload f (getTargetNameOf t))
           ∈ inv.context.files) := by
  rw [pullFilesFrom_eq files t plugins res out hf hm]
  have hctx := runPlugins_inv_context files t (getTargetNameOf t) res out
    (matchingPlugins plugins (normalizeString t.type)) 0
  refine ⟨hctx, ?_, ?_⟩
  · intro f hfm hr
    constructor
    · rcases List.exists_cons_of_ne_nil hm with ⟨p, rest, hcons⟩
      rw [hcons]
      exact runPlugins_unresolved_log files t (getTargetNameOf t) res out
        p rest 0 f hfm hr
    · intro inv hinv fd hfd hfile
      rw [hctx inv hinv] at hfd
      rcases List.mem_filterMap.mp hfd with ⟨g, _, hg⟩
      rcases Option.map_eq_some'.mp hg with ⟨np, hgres, hfd_eq⟩
      have hgf : g = f := by
        rw [← hfile, ← hfd_eq]
      rw [hgf] at hgres
      rw [hgres] at hr
      exact absurd hr (by simp)
  · intro f hfm np hr inv hinv
    rw [hctx inv hinv]
    exact List.mem_filterMap.mpr ⟨f, hfm, by simp [mkFileToDownload, hr]⟩

/-- Witness for C7: in a batch with one resolvable and one unresolvable
file, the unresolvable one is logged and excluded while the resolvable
one is dispatched. -/
theorem pullFilesFrom_unresolvable_excluded_witness :
    unresolvedLog "bad.txt"
      ∈ (pullFilesFrom ["a.txt", "bad.txt"] (some wT1) [wPlg1] wRes7 wOut).logs ∧
    ((pullFilesFrom ["a.txt", "bad.txt"] (some wT1) [wPlg1] wRes7 wOut).invocations.map
        (fun inv => inv.context.files.map FileToDownload.file)) = [["a.txt"]] := by
  have h := pullFilesFrom_unresolvable_excluded ["a.txt", "bad.txt"] wT1 [wPlg1]
    wRes7 wOut (by decide) (by decide)
  exact ⟨(h.2.1 "bad.txt" (by decide) (by decide)).1, by decide⟩

/-- Sequential processing of the completion callbacks of a batch: each
entry `(file, error, downloadedFile, persistError)` contributes exactly
its own completion result. -/
def runCompletions
    (batch : List (String × Option String × Option String × Option String)) :
    List (List String × List (String × String)) :=
  batch.map (fun b => onDownloadCompleted b.1 b.2.1 b.2.2.1 b.2.2.2)

/-- C8: the completion callback logs `[ERROR: ...]` when the error
argument is set; otherwise, with a readable result present, it persists
the content to the original file path and logs `[OK]` — and an exception
thrown while persisting is caught inside the callback and logged as an
error with no write; without a result it just logs `[OK]`. The callback
always completes normally with exactly one completion line, and in a
batch each file's completion is independent of its siblings. -/
theorem onDownloadCompleted_spec (f : String) (err df persistErr : Option String) :
    (∀ e, err = some e →
       onDownloadCompleted f err df persistErr = ([s!"[ERROR: {e}]"], [])) ∧
    (∀ c, err = none → df = some c → persistErr = none →
       onDownloadCompleted f err df persistErr = (["[OK]"], [(f, c)])) ∧
    (∀ c e, err = none → df = some c → persistErr = some e →
       onDownloadCompleted f err df persistErr = ([s!"[ERROR: {e}]"], [])) ∧
    (err = none → df = none →
       onDownloadCompleted f err df persistErr = (["[OK]"], [])) ∧
    ((onDownloadCompleted f err df persistErr).1.length = 1) ∧
    (∀ pre post,
       runCompletions (pre ++ (f, err, df, persistErr) :: post)
         = runCompletions pre
             ++ [onDownloadCompleted f err df persistErr]
             ++ runCompletions post) := by
  refine ⟨?_, ?_, ?_, ?_, ?_, ?_⟩
  · intro e he
    simp [onDownloadCompleted, downloadCompletedTry, he]
  · intro c he hd hp
    simp [onDownloadCompleted, downloadCompletedTry, persistDownloadedFile,
      he, hd, hp]
  · intro c e he hd hp
    simp [onDownloadCompleted, downloadCompletedTry, persistDownloadedFile,
      he, hd, hp]
  · intro he hd
    simp [onDownloadCompleted, downloadCompletedTry, he, hd]
  · cases err with
    | some e => simp [onDownloadCompleted, downloadCompletedTry]
    | none =>
      cases df with
      | none => simp [onDownloadCompleted, downloadCompletedTry]
      | some c =>
        cases persistErr with
        | none =>
          simp [onDownloadCompleted, downloadCompletedTry, persistDownloadedFile]
        | some e =>
          simp [onDownloadCompleted, downloadCompletedTry, persistDownloadedFile]
  · intro pre post
    simp [runCompletions]

/-- Witness for C8: a persist failure is caught and logged for that file
only, while a clean completion of the same shape persists and logs
`[OK]`. -/
theorem onDownloadCompleted_spec_witness :
    onDownloadCompleted "a.txt" none (some "data") (some "EACCES")
      = (["[ERROR: EACCES]"], []) ∧
    onDownloadCompleted "a.txt" none (some "data") none
      = (["[OK]"], [("a.txt", "data")]) := by
  have h1 := onDownloadCompleted_spec "a.txt" none (some "data") (some "EACCES")
  have h2 := onDownloadCompleted_spec "a.txt" none (some "data") none
  exact ⟨h1.2.2.1 "data" "EACCES" rfl rfl rfl, h2.2.1 "data" rfl rfl rfl⟩

/-- C9: the target selection flow warns and invokes nothing when no
target qualifies; auto-selects the single qualifying target with no UI
prompt; and with two or more qualifying targets shows the UI prompt and
invokes an action only for a made selection — a cancelled selection is a
no-op. -/
theorem showTargetQuickPick_selection (targets : List (Option Target))
    (uiChoice : Option Nat) :
    ((targets.filterMap id).length = 0 →
       showTargetQuickPick targets uiChoice = ⟨true, false, none⟩) ∧
    ((targets.filterMap id).length = 1 →
       showTargetQuickPick targets uiChoice = ⟨false, false, some 0⟩) ∧
    (2 ≤ (targets.filterMap id).length →
       (showTargetQuickPick targets uiChoice).warningShown = false ∧
       (showTargetQuickPick targets uiChoice).promptShown = true ∧
       (uiChoice = none → (showTargetQuickPick targets uiChoice).invoked = none) ∧
       (∀ i, uiChoice = some i → i < (targets.filterMap id).length →
          (showTargetQuickPick targets uiChoice).invoked = some i)) := by
  refine ⟨?_, ?_, ?_⟩
  · intro h0
    simp [showTargetQuickPick, h0]
  · intro h1
    simp [showTargetQuickPick, h1]
  · intro h2
    have hn1 : ¬ ((targets.filterMap id).length < 1) := by omega
    have hn2 : ¬ ((targets.filterMap id).length = 1) := by omega
    cases uiChoice with
    | none =>
      refine ⟨?_, ?_, fun _ => ?_, ?_⟩
      · simp [showTargetQuickPick, hn1, hn2]
      · simp [showTargetQuickPick, hn1, hn2]
      · simp [showTargetQuickPick, hn1, hn2]
      · intro i hi
        exact absurd hi (by simp)
    | some j =>
      refine ⟨?_, ?_, ?_, ?_⟩
      · simp [showTargetQuickPick, hn1, hn2]
      · simp [showTargetQuickPick, hn1, hn2]
      · intro hcontra
        exact absurd hcontra (by simp)
      · intro i hi hlt
        have hji : j = i := Option.some_injective _ hi
        subst hji
        simp [showTargetQuickPick, hn1, hn2, hlt]

/-- Concrete targets used by the C9 witness. -/
def wT9a : Target := ⟨some "A", none, none, [], [], 0⟩

/-- Second concrete target used by the C9 witness. -/
def wT9b : Target := ⟨some "B", none, none, [], [], 1⟩

/-- Witness for C9: with two qualifying targets the UI prompt is shown
and the second target's action is invoked on selection index 1. -/
theorem showTargetQuickPick_selection_witness :
    (showTargetQuickPick [some wT9a, some wT9b] (some 1)).promptShown = true ∧
    (showTargetQuickPick [some wT9a, some wT9b] (some 1)).invoked = some 1 ∧
    (showTargetQuickPick [some wT9a] none).invoked = some 0 := by
  have h2 := showTargetQuickPick_selection [some wT9a, some wT9b] (some 1)
  have h1 := showTargetQuickPick_selection [some wT9a] (none : Option Nat)
  refine ⟨(h2.2.2 (by decide)).2.1, (h2.2.2 (by decide)).2.2.2 1 rfl (by decide), ?_⟩
  rw [h1.2.1 (by decide)]
